/-
Verification of the minio_uploader utility (src/main.rs) against its
natural-language specification.

The program is a single linear pipeline (function `run` in main.rs):
argument collection, optional Windows uninstall/registration of a shell
context menu, settings resolution and parsing, argument validation, file
existence check, storage-client construction, upload, URL construction,
clipboard copy, dialog reporting, and exit-code selection in `main`.

The embedding below translates that pipeline into a pure function
`run : Env → Trace` where `Env` captures every external input the process
reads (platform, argv, registry state, candidate config files, filesystem,
and the success/failure of each delegated library call) and `Trace` records
the externally observable behaviour (outcome, exit code, dialogs shown,
whether the storage client was constructed, whether the put request was
sent and with which key, the URL built, and the registry state at exit).

External library functions on the program's data path are embedded from
their documented behaviour: `urlencoding::encode` / `urlencoding::decode`
(percent-encoding of the UTF-8 bytes, keeping only `[A-Za-z0-9_.~-]`),
`Path::file_name` (on `/`-separated UTF-8 paths), and
`str::eq_ignore_ascii_case`. `String.trim` is used for Rust `str::trim`
(both trim surrounding whitespace; the claims never involve exotic Unicode
whitespace). The S3 client, dialog renderer, clipboard and registry are
oracles in `Env`, as the spec designates them external collaborators.
-/
import Mathlib

set_option maxRecDepth 8192

/-! ## ASCII case-insensitive comparison (str::eq_ignore_ascii_case) -/

/-- Lower-case an ASCII letter, leave any other character unchanged
(the fold performed byte-wise by Rust `eq_ignore_ascii_case`; on UTF-8
text the byte-wise fold agrees with this character-wise fold because
multi-byte sequences contain no bytes in the ASCII letter range). -/
def asciiLower (c : Char) : Char :=
  if 'A' ≤ c ∧ c ≤ 'Z' then Char.ofNat (c.toNat + 32) else c

/-- Model of Rust `str::eq_ignore_ascii_case`. -/
def eqIgnoreAsciiCase (a b : String) : Bool :=
  a.data.map asciiLower == b.data.map asciiLower

/-- Model of the uninstall-flag test in `run`:
`a.eq_ignore_ascii_case("--uninstall") || a.eq_ignore_ascii_case("/uninstall")`. -/
def isUninstallFlag (a : String) : Bool :=
  eqIgnoreAsciiCase a "--uninstall" || eqIgnoreAsciiCase a "/uninstall"

/-! ## Path base name (Path::file_name / to_str) -/

/-- Split a character list at every `'/'` (the chunks between separators,
so the result is always non-empty). -/
def splitSlash : List Char → List (List Char)
  | [] => [[]]
  | c :: rest =>
    if c = '/' then [] :: splitSlash rest
    else
      match splitSlash rest with
      | [] => [[c]]
      | g :: gs => (c :: g) :: gs

/-- Keep the path components that Rust `Path::components` keeps: empty
chunks (doubled or trailing separators) and `.` chunks are dropped. -/
def keptComponent (g : List Char) : Bool :=
  !(g.isEmpty) && g != ['.']

/-- Model of Rust `Path::file_name().and_then(|s| s.to_str())` on a
`/`-separated UTF-8 path: the last kept component, unless the path ends in
a `..` component (then `None`, as documented for `Path::file_name`). -/
def fileName (p : String) : Option String :=
  match ((splitSlash p.data).filter keptComponent).getLast? with
  | none => none
  | some g => if g = ['.', '.'] then none else some ⟨g⟩

/-- Model of lines 145-148 of main.rs: the storage key is the base name,
or the literal `"unknown_file"` when extraction fails. -/
def objectKey (p : String) : String :=
  (fileName p).getD "unknown_file"

/-! ## UTF-8 bytes of a string, and their percent-encoding
(`urlencoding::encode` / `urlencoding::decode` operate on the UTF-8 bytes
of the input, keeping exactly the bytes `[A-Za-z0-9_.~-]` and writing every
other byte as `%` followed by two upper-case hex digits). -/

/-- UTF-8 encoding of a single scalar value, written with division and
remainder so the byte arithmetic is visible to `omega`. -/
def utf8Bytes (c : Char) : List Nat :=
  if c.toNat < 0x80 then [c.toNat]
  else if c.toNat < 0x800 then [0xC0 + c.toNat / 64, 0x80 + c.toNat % 64]
  else if c.toNat < 0x10000 then
    [0xE0 + c.toNat / 4096, 0x80 + c.toNat / 64 % 64, 0x80 + c.toNat % 64]
  else
    [0xF0 + c.toNat / 262144, 0x80 + c.toNat / 4096 % 64, 0x80 + c.toNat / 64 % 64,
      0x80 + c.toNat % 64]

/-- UTF-8 bytes of a whole string. -/
def stringBytes (s : String) : List Nat :=
  (s.data.map utf8Bytes).flatten

/-- Consume one UTF-8 continuation byte, yielding its 6-bit payload and
the remaining bytes. -/
def takeCont : List Nat → Option (Nat × List Nat)
  | [] => none
  | b :: rest => if 0x80 ≤ b ∧ b < 0xC0 then some (b - 0x80, rest) else none

/-- Decode one scalar value from the front of a byte list, with the strict
checks performed by Rust `String::from_utf8`: continuation bytes in range,
no overlong forms (first byte at least `0xC2`, three-byte values at least
`0x800`, four-byte values at least `0x10000`), no surrogates, and values
below `0x110000`. -/
def decodeOne : List Nat → Option (Nat × List Nat)
  | [] => none
  | b0 :: rest =>
    if b0 < 0x80 then some (b0, rest)
    else if b0 < 0xC2 then none
    else if b0 < 0xE0 then
      (takeCont rest).bind (fun p1 => some ((b0 - 0xC0) * 64 + p1.1, p1.2))
    else if b0 < 0xF0 then
      (takeCont rest).bind (fun p1 => (takeCont p1.2).bind (fun p2 =>
        if 0x800 ≤ (b0 - 0xE0) * 4096 + p1.1 * 64 + p2.1 ∧
            ¬(0xD800 ≤ (b0 - 0xE0) * 4096 + p1.1 * 64 + p2.1 ∧
              (b0 - 0xE0) * 4096 + p1.1 * 64 + p2.1 ≤ 0xDFFF) then
          some ((b0 - 0xE0) * 4096 + p1.1 * 64 + p2.1, p2.2)
        else none))
    else if b0 < 0xF5 then
      (takeCont rest).bind (fun p1 => (takeCont p1.2).bind (fun p2 =>
        (takeCont p2.2).bind (fun p3 =>
          if 0x10000 ≤ (b0 - 0xF0) * 262144 + p1.1 * 4096 + p2.1 * 64 + p3.1 ∧
              (b0 - 0xF0) * 262144 + p1.1 * 4096 + p2.1 * 64 + p3.1 < 0x110000 then
            some ((b0 - 0xF0) * 262144 + p1.1 * 4096 + p2.1 * 64 + p3.1, p3.2)
          else none)))
    else none

/-- Unfolding equation of takeCont on a non-empty list. -/
theorem takeCont_cons (b : Nat) (rest : List Nat) :
    takeCont (b :: rest) = if 0x80 ≤ b ∧ b < 0xC0 then some (b - 0x80, rest) else none := rfl

/-- Unfolding equation of decodeOne on a non-empty list. -/
theorem decodeOne_cons (b0 : Nat) (rest : List Nat) :
    decodeOne (b0 :: rest) =
      if b0 < 0x80 then some (b0, rest)
      else if b0 < 0xC2 then none
      else if b0 < 0xE0 then
        (takeCont rest).bind (fun p1 => some ((b0 - 0xC0) * 64 + p1.1, p1.2))
      else if b0 < 0xF0 then
        (takeCont rest).bind (fun p1 => (takeCont p1.2).bind (fun p2 =>
          if 0x800 ≤ (b0 - 0xE0) * 4096 + p1.1 * 64 + p2.1 ∧
              ¬(0xD800 ≤ (b0 - 0xE0) * 4096 + p1.1 * 64 + p2.1 ∧
                (b0 - 0xE0) * 4096 + p1.1 * 64 + p2.1 ≤ 0xDFFF) then
            some ((b0 - 0xE0) * 4096 + p1.1 * 64 + p2.1, p2.2)
          else none))
      else if b0 < 0xF5 then
        (takeCont rest).bind (fun p1 => (takeCont p1.2).bind (fun p2 =>
          (takeCont p2.2).bind (fun p3 =>
            if 0x10000 ≤ (b0 - 0xF0) * 262144 + p1.1 * 4096 + p2.1 * 64 + p3.1 ∧
                (b0 - 0xF0) * 262144 + p1.1 * 4096 + p2.1 * 64 + p3.1 < 0x110000 then
              some ((b0 - 0xF0) * 262144 + p1.1 * 4096 + p2.1 * 64 + p3.1, p3.2)
            else none)))
      else none := rfl

/-- Consuming a continuation byte shortens the list. -/
theorem takeCont_length {l : List Nat} {p : Nat × List Nat} (h : takeCont l = some p) :
    p.2.length < l.length := by
  cases l with
  | nil => exact Option.noConfusion h
  | cons b rest =>
    rw [takeCont_cons] at h
    split at h
    · cases h
      simp
    · exact Option.noConfusion h

/-- Decoding one scalar value consumes at least one byte. -/
theorem decodeOne_length {l : List Nat} {p : Nat × List Nat} (h : decodeOne l = some p) :
    p.2.length < l.length := by
  cases l with
  | nil => exact Option.noConfusion h
  | cons b0 rest =>
    rw [decodeOne_cons] at h
    split at h
    · cases h
      simp
    · split at h
      · exact Option.noConfusion h
      · split at h
        · rw [Option.bind_eq_some] at h
          obtain ⟨p1, h1, h⟩ := h
          cases h
          have t1 := takeCont_length h1
          simp only [List.length_cons]
          omega
        · split at h
          · rw [Option.bind_eq_some] at h
            obtain ⟨p1, h1, h⟩ := h
            rw [Option.bind_eq_some] at h
            obtain ⟨p2, h2, h⟩ := h
            split at h
            · cases h
              have t1 := takeCont_length h1
              have t2 := takeCont_length h2
              simp only [List.length_cons]
              omega
            · exact Option.noConfusion h
          · split at h
            · rw [Option.bind_eq_some] at h
              obtain ⟨p1, h1, h⟩ := h
              rw [Option.bind_eq_some] at h
              obtain ⟨p2, h2, h⟩ := h
              rw [Option.bind_eq_some] at h
              obtain ⟨p3, h3, h⟩ := h
              split at h
              · cases h
                have t1 := takeCont_length h1
                have t2 := takeCont_length h2
                have t3 := takeCont_length h3
                simp only [List.length_cons]
                omega
              · exact Option.noConfusion h
            · exact Option.noConfusion h

/-- Strict UTF-8 decoding of a byte list (as performed by Rust
`String::from_utf8` inside `urlencoding::decode`). -/
def utf8Decode (l : List Nat) : Option (List Char) :=
  match h : decodeOne l with
  | none => if l.isEmpty then some [] else none
  | some p => (utf8Decode p.2).map (Char.ofNat p.1 :: ·)
termination_by l.length
decreasing_by exact decodeOne_length h

/-- Bytes kept verbatim by `urlencoding::encode`: ASCII alphanumerics and
`-` `.` `_` `~`. -/
def isUnreservedByte (b : Nat) : Bool :=
  (0x30 ≤ b && b ≤ 0x39) || (0x41 ≤ b && b ≤ 0x5A) || (0x61 ≤ b && b ≤ 0x7A) ||
    b == 0x2D || b == 0x2E || b == 0x5F || b == 0x7E

/-- Upper-case hexadecimal digit for a value below 16. -/
def hexDigitChar (n : Nat) : Char :=
  if n < 10 then Char.ofNat (0x30 + n) else Char.ofNat (55 + n)

/-- Percent-encoding of a single byte. -/
def encodeByte (b : Nat) : List Char :=
  if isUnreservedByte b then [Char.ofNat b]
  else ['%', hexDigitChar (b / 16), hexDigitChar (b % 16)]

/-- Model of `urlencoding::encode`, as called on the object key at
line 177 of main.rs. -/
def urlEncode (s : String) : String :=
  ⟨((stringBytes s).map encodeByte).flatten⟩

/-- Value of a hexadecimal digit character (either case), if any. -/
def hexVal (c : Char) : Option Nat :=
  if '0' ≤ c ∧ c ≤ '9' then some (c.toNat - 48)
  else if 'A' ≤ c ∧ c ≤ 'F' then some (c.toNat - 55)
  else if 'a' ≤ c ∧ c ≤ 'f' then some (c.toNat - 87)
  else none

/-- Read two hexadecimal digit characters from the front of a list,
yielding the byte they denote and the remaining characters. -/
def takeHex2 : List Char → Option (Nat × List Char)
  | h :: l :: rest =>
    match hexVal h, hexVal l with
    | some hv, some lv => some (hv * 16 + lv, rest)
    | _, _ => none
  | _ => none

/-- Reading two hex digits shortens the list. -/
theorem takeHex2_length {l : List Char} {p : Nat × List Char} (h : takeHex2 l = some p) :
    p.2.length < l.length := by
  cases l with
  | nil => exact Option.noConfusion h
  | cons a t =>
    cases t with
    | nil => exact Option.noConfusion h
    | cons b r =>
      rw [show takeHex2 (a :: b :: r) =
          (match hexVal a, hexVal b with
            | some hv, some lv => some (hv * 16 + lv, r)
            | _, _ => none) from rfl] at h
      rcases hva : hexVal a with _ | hv <;> rw [hva] at h
      · exact Option.noConfusion h
      · rcases hvb : hexVal b with _ | lv <;> rw [hvb] at h
        · exact Option.noConfusion h
        · cases h
          simp only [List.length_cons]
          omega

/-- Byte stream read back by `urlencoding::decode`: a `%` followed by two
hex digits yields that byte, a malformed `%` sequence is passed through
literally, and any other character contributes its own UTF-8 bytes. -/
def percentDecodeBytes : List Char → List Nat
  | [] => []
  | c :: rest =>
    if c = '%' then
      match hp : takeHex2 rest with
      | some p => p.1 :: percentDecodeBytes p.2
      | none => utf8Bytes c ++ percentDecodeBytes rest
    else utf8Bytes c ++ percentDecodeBytes rest
termination_by l => l.length
decreasing_by
  all_goals simp only [List.length_cons]
  · exact Nat.lt_succ_of_lt (takeHex2_length hp)
  · omega
  · omega

/-- Modelled from the spec: `urlencoding::decode` (percent-decoding the
bytes, then strict UTF-8 validation). The repository never calls `decode`;
the spec asserts a round-trip property about it. -/
def urlDecode (s : String) : Option String :=
  (utf8Decode (percentDecodeBytes s.data)).map (fun l => ⟨l⟩)

/-! ## URL construction (lines 169-179 of main.rs) -/

/-- Model of Rust `str::trim`: drop leading and trailing whitespace
characters. -/
def rustTrim (s : String) : String :=
  ⟨((s.data.dropWhile Char.isWhitespace).reverse.dropWhile Char.isWhitespace).reverse⟩

/-- Model of lines 170-173: trim surrounding whitespace from the endpoint,
then remove a single trailing slash, if present (`ends_with('/')` followed
by `String::pop`, which removes at most one character). -/
def trimmedEndpoint (ep : String) : String :=
  let t := rustTrim ep
  match t.data.getLast? with
  | some '/' => ⟨t.data.dropLast⟩
  | _ => t

/-- Model of lines 174-179: the object URL formatted from the trimmed
endpoint, the bucket, and the percent-encoded key. -/
def buildObjectUrl (ep bucket key : String) : String :=
  trimmedEndpoint ep ++ "/" ++ bucket ++ "/" ++ urlEncode key

/-- Modelled from the spec words, for comparison with the code: the claim
says trailing slash(es) — all of them — are trimmed from the endpoint. -/
def specTrimTrailingSlashes (ep : String) : String :=
  ⟨(ep.data.reverse.dropWhile (· = '/')).reverse⟩

/-- Modelled from the spec words, for comparison with the code: the URL
the claim predicts, built from the fully slash-trimmed endpoint. -/
def specObjectUrl (ep bucket key : String) : String :=
  specTrimTrailingSlashes ep ++ "/" ++ bucket ++ "/" ++ urlEncode key

/-! ## Settings and configuration parsing (Settings::new, lines 28-83) -/

/-- The four-field settings record of main.rs (lines 20-26). -/
structure Settings where
  endpoint : String
  access_key : String
  secret_key : String
  bucket : String
deriving DecidableEq, Repr

/-- Abstraction of a candidate `Settings.toml` file on disk: whether the
`config` crate can parse it syntactically, and which of the four keys it
defines (with their raw string values). -/
structure ConfigFile where
  syntaxOk : Bool
  endpoint : Option String
  access_key : Option String
  secret_key : Option String
  bucket : Option String
deriving DecidableEq, Repr

/-- The two fatal startup errors of Settings::new. -/
inductive StartupError where
  | configNotFound
  | configParseError
deriving DecidableEq, Repr

/-- Dialogs shown via native_dialog (show_error_dialog / show_info_dialog). -/
inductive Dialog where
  | error (msg : String)
  | info (msg : String)
deriving DecidableEq, Repr

/-- Message of the config-not-found dialog shown inside Settings::new
(lines 50-77; the concrete attempted paths are abstracted away). -/
def configNotFoundMsg : String :=
  "Configuration file not found. Please create Settings.toml in the user data directory or next to the executable."

/-- Model of `Settings::new` (lines 28-83): pick the app-data candidate if
it exists, else the executable-directory candidate; show an error dialog
and fail if neither exists; otherwise parse the chosen file and
deserialize the four fields. Deserialization fails exactly when the file
does not parse or a field is missing; values are taken as-is, with no
non-emptiness check. A parse or deserialize error propagates via `?`
without showing any dialog. -/
def settingsNew (appdata exeDir : Option ConfigFile) :
    Except StartupError Settings × List Dialog :=
  match appdata, exeDir with
  | none, none => (Except.error StartupError.configNotFound, [Dialog.error configNotFoundMsg])
  | some f, _ | none, some f =>
    if f.syntaxOk then
      match f.endpoint, f.access_key, f.secret_key, f.bucket with
      | some ep, some ak, some sk, some bk => (Except.ok ⟨ep, ak, sk, bk⟩, [])
      | _, _, _, _ => (Except.error StartupError.configParseError, [])
    else (Except.error StartupError.configParseError, [])

/-- The settings value produced by Settings::new, if it succeeds. -/
def settingsResult (appdata exeDir : Option ConfigFile) : Option Settings :=
  match (settingsNew appdata exeDir).1 with
  | Except.ok s => some s
  | Except.error _ => none

/-! ## The process model: environment, observable trace, and `run` -/

/-- Every external input the process reads during one invocation. The
`…Ok` booleans are oracles for the delegated library calls the spec
declares out of scope (S3 client, file read, clipboard, registry writes). -/
structure Env where
  /-- Whether the `cfg(windows)` code is compiled in. -/
  windows : Bool
  /-- The full argument list, `args[0]` being the program name. -/
  args : List String
  /-- Whether the registry command subkey exists (checked by
  ensure_context_menu_registered). -/
  registryCommandKey : Bool
  /-- Whether the registry base subtree exists (checked by
  remove_context_menu_registration). -/
  registryBaseKey : Bool
  /-- Whether creating the registry keys succeeds. -/
  registryCreateOk : Bool
  /-- Whether delete_subkey_all succeeds. -/
  registryDeleteOk : Bool
  /-- The app-data `Settings.toml` candidate, if that file exists. -/
  appdataConfig : Option ConfigFile
  /-- The executable-directory `Settings.toml` candidate, if it exists. -/
  exeDirConfig : Option ConfigFile
  /-- The filesystem existence predicate used by `Path::exists`. -/
  fsExists : String → Bool
  /-- Whether a given endpoint string parses as a minio `BaseUrl`. -/
  baseUrlOk : String → Bool
  /-- Whether ClientBuilder::build succeeds. -/
  clientBuildOk : Bool
  /-- Whether opening and reading the target file succeeds. -/
  fileReadOk : Bool
  /-- Whether the put_object_content request succeeds. -/
  uploadOk : Bool
  /-- Whether the clipboard copy succeeds. -/
  clipboardOk : Bool

/-- Classification of how a run ended (the error cases mirror the error
kinds of spec section 7, plus the propagated library failures). -/
inductive Outcome where
  | uninstallOk
  | uninstallFailed
  | configNotFound
  | configParseError
  | usageError
  | fileNotFound
  | endpointParseError
  | clientBuildError
  | fileReadError
  | uploadError
  | uploadSuccess
deriving DecidableEq, Repr

/-- The externally observable behaviour of one invocation. -/
structure Trace where
  outcome : Outcome
  /-- Process exit status set in `main`: 1 when `run` returned Err. -/
  exitCode : Nat
  /-- All dialogs shown, in order. -/
  dialogs : List Dialog := []
  /-- Whether Settings::new was invoked. -/
  settingsLoaded : Bool := false
  /-- Whether ClientBuilder was invoked (storage client construction). -/
  clientConstructed : Bool := false
  /-- Whether the put_object_content request was sent over the network. -/
  networkCalled : Bool := false
  /-- The object key passed to put_object_content, when it was sent. -/
  putKey : Option String := none
  /-- The bucket passed to put_object_content, when it was sent. -/
  putBucket : Option String := none
  /-- The object URL built at lines 174-179, when that line was reached. -/
  objectUrl : Option String := none
  /-- Whether the registry base subtree exists when the process exits. -/
  registryAfter : Bool := false
deriving DecidableEq, Repr

/-- Dialog messages of the remaining paths (formatted arguments are
concatenated; the Chinese text is the source text of main.rs). -/
def uninstallOkMsg : String := "已移除右键菜单 (Current User)。"

/-- Message of the failed-uninstall error dialog. -/
def uninstallFailMsg : String := "移除右键菜单失败"

/-- Message of the non-fatal registration-failure dialog. -/
def regFailMsg : String := "Failed to register context menu"

/-- Message of the usage dialog (line 130-132). -/
def usageMsg (args : List String) : String :=
  "No file path provided. Usage: Drag a file onto " ++ args.headD "minio_uploader.exe" ++
    " or use the context menu."

/-- Message of the missing-file dialog (line 141). -/
def fileNotFoundMsg (p : String) : String := "File does not exist: " ++ p

/-- Message of the success dialog (line 189). -/
def successMsg (url : String) : String := "上传成功，链接已复制到剪切板: " ++ url

/-- Message of the clipboard-failure dialog (line 186). -/
def clipFailMsg (url : String) : String := "上传成功，但复制到剪切板失败。URL: " ++ url

/-- Message of the upload-failure dialog (line 193). -/
def uploadFailMsg : String := "上传失败"

/-- Model of the uninstall branch of `run` (lines 106-118) together with
remove_context_menu_registration (lines 227-236): a no-op success when the
subtree is absent, otherwise delete_subkey_all, whose failure is fatal. -/
def uninstallRun (e : Env) : Trace :=
  if e.registryBaseKey then
    if e.registryDeleteOk then
      { outcome := Outcome.uninstallOk, exitCode := 0,
        dialogs := [Dialog.info uninstallOkMsg], registryAfter := false }
    else
      { outcome := Outcome.uninstallFailed, exitCode := 1,
        dialogs := [Dialog.error uninstallFailMsg], registryAfter := true }
  else
    { outcome := Outcome.uninstallOk, exitCode := 0,
      dialogs := [Dialog.info uninstallOkMsg], registryAfter := false }

/-- Dialogs of ensure_context_menu_registered (lines 120-126): a single
non-fatal error dialog when registration is attempted and fails. -/
def registrationDialogs (e : Env) : List Dialog :=
  if e.windows && !e.registryCommandKey && !e.registryCreateOk then
    [Dialog.error regFailMsg]
  else []

/-- Registry state after a normal (non-uninstall) run: on Windows a
successful registration creates the subtree; otherwise it is unchanged. -/
def registryAfterNormal (e : Env) : Bool :=
  if e.windows && !e.registryCommandKey && e.registryCreateOk then true
  else e.registryBaseKey

/-- The path argument of the invocation (`args[1]`). -/
def arg1 (e : Env) : String := e.args.getD 1 ""

/-- Model of `run` from the settings onward (lines 128-196): the
argument-count check, the file existence check, base-name extraction,
BaseUrl parsing, client construction, file read, the put request, URL
construction, clipboard and dialogs. `rd` and `ra` are the registration
dialogs and resulting registry state accumulated before this point. -/
def afterSettings (e : Env) (rd : List Dialog) (ra : Bool) (s : Settings) : Trace :=
  if e.args.length < 2 then
    { outcome := Outcome.usageError, exitCode := 1,
      dialogs := rd ++ [Dialog.error (usageMsg e.args)],
      settingsLoaded := true, registryAfter := ra }
  else if e.fsExists (arg1 e) then
    if e.baseUrlOk s.endpoint then
      if e.clientBuildOk then
        if e.fileReadOk then
          if e.uploadOk then
            { outcome := Outcome.uploadSuccess, exitCode := 0,
              dialogs := rd ++
                [if e.clipboardOk then
                    Dialog.info (successMsg (buildObjectUrl s.endpoint s.bucket (objectKey (arg1 e))))
                  else
                    Dialog.error (clipFailMsg (buildObjectUrl s.endpoint s.bucket (objectKey (arg1 e))))],
              settingsLoaded := true, clientConstructed := true, networkCalled := true,
              putKey := some (objectKey (arg1 e)), putBucket := some s.bucket,
              objectUrl := some (buildObjectUrl s.endpoint s.bucket (objectKey (arg1 e))),
              registryAfter := ra }
          else
            { outcome := Outcome.uploadError, exitCode := 1,
              dialogs := rd ++ [Dialog.error uploadFailMsg],
              settingsLoaded := true, clientConstructed := true, networkCalled := true,
              putKey := some (objectKey (arg1 e)), putBucket := some s.bucket,
              objectUrl := some (buildObjectUrl s.endpoint s.bucket (objectKey (arg1 e))),
              registryAfter := ra }
        else
          { outcome := Outcome.fileReadError, exitCode := 1, dialogs := rd,
            settingsLoaded := true, clientConstructed := true, registryAfter := ra }
      else
        { outcome := Outcome.clientBuildError, exitCode := 1, dialogs := rd,
          settingsLoaded := true, clientConstructed := true, registryAfter := ra }
    else
      { outcome := Outcome.endpointParseError, exitCode := 1, dialogs := rd,
        settingsLoaded := true, registryAfter := ra }
  else
    { outcome := Outcome.fileNotFound, exitCode := 1,
      dialogs := rd ++ [Dialog.error (fileNotFoundMsg (arg1 e))],
      settingsLoaded := true, registryAfter := ra }

/-- Normal (non-uninstall) run: registration attempt first (Windows only,
non-fatal), then Settings::new, then the rest of the pipeline. A settings
error short-circuits with exit 1, showing only whatever dialogs
Settings::new itself produced. -/
def runNormal (e : Env) : Trace :=
  match settingsNew e.appdataConfig e.exeDirConfig with
  | (Except.error StartupError.configNotFound, ds) =>
    { outcome := Outcome.configNotFound, exitCode := 1,
      dialogs := registrationDialogs e ++ ds, settingsLoaded := true,
      registryAfter := registryAfterNormal e }
  | (Except.error StartupError.configParseError, ds) =>
    { outcome := Outcome.configParseError, exitCode := 1,
      dialogs := registrationDialogs e ++ ds, settingsLoaded := true,
      registryAfter := registryAfterNormal e }
  | (Except.ok s, _) =>
    afterSettings e (registrationDialogs e) (registryAfterNormal e) s

/-- Model of `run` (lines 102-196) composed with `main` (lines 238-244):
on Windows an uninstall flag anywhere in the argument list short-circuits
everything else; otherwise the normal pipeline runs. -/
def run (e : Env) : Trace :=
  if e.windows && e.args.any isUninstallFlag then uninstallRun e
  else runNormal e

/-- The settings the run would resolve, if resolution succeeds. -/
def resolvedSettings (e : Env) : Option Settings :=
  settingsResult e.appdataConfig e.exeDirConfig

/-! ## Example environments used by witnesses and counterexamples -/

/-- A well-formed settings file (the spec section 8 example scenario). -/
def goodConfig : ConfigFile :=
  ⟨true, some "https://s3.example.com/", some "AK", some "SK", some "photos"⟩

/-- The settings goodConfig parses to. -/
def goodSettings : Settings := ⟨"https://s3.example.com/", "AK", "SK", "photos"⟩

/-- A fully successful non-Windows invocation uploading `dir/My Trip.png`
(the spec section 8 example scenario). -/
def envBase : Env :=
  { windows := false, args := ["minio_uploader", "dir/My Trip.png"],
    registryCommandKey := false, registryBaseKey := false,
    registryCreateOk := true, registryDeleteOk := true,
    appdataConfig := some goodConfig, exeDirConfig := none,
    fsExists := fun _ => true, baseUrlOk := fun _ => true,
    clientBuildOk := true, fileReadOk := true, uploadOk := true, clipboardOk := true }

/-! ## Properties of the character-level utilities -/

/-- Validity of a character's scalar value, in arithmetic form. -/
theorem char_toNat_valid (c : Char) :
    c.toNat < 0xD800 ∨ (0xDFFF < c.toNat ∧ c.toNat < 0x110000) := c.valid

/-- Converting a valid scalar value to a character and back is the
identity. -/
theorem toNat_ofNat_valid {n : Nat} (h : n.isValidChar) : (Char.ofNat n).toNat = n := by
  rw [Char.ofNat, dif_pos h]; rfl

/-- Every UTF-8 byte is below 256. -/
theorem utf8Bytes_lt (c : Char) : ∀ b ∈ utf8Bytes c, b < 256 := by
  have hv := char_toNat_valid c
  intro b hb
  unfold utf8Bytes at hb
  split at hb
  · simp at hb; omega
  · split at hb
    · simp at hb; omega
    · split at hb
      · simp at hb; omega
      · simp at hb; omega

/-- Every byte of a string's UTF-8 encoding is below 256. -/
theorem stringBytes_lt (s : String) : ∀ b ∈ stringBytes s, b < 256 := by
  intro b hb
  unfold stringBytes at hb
  rw [List.mem_flatten] at hb
  obtain ⟨l, hl, hbl⟩ := hb
  rw [List.mem_map] at hl
  obtain ⟨c, _, rfl⟩ := hl
  exact utf8Bytes_lt c b hbl

/-- Decoding one scalar from the UTF-8 bytes of a character prepended to
any byte list yields that character's scalar value and the tail. -/
theorem decodeOne_utf8Bytes (c : Char) (bs : List Nat) :
    decodeOne (utf8Bytes c ++ bs) = some (c.toNat, bs) := by
  have hv := char_toNat_valid c
  unfold utf8Bytes
  by_cases h1 : c.toNat < 0x80
  · rw [if_pos h1, List.singleton_append, decodeOne_cons, if_pos h1]
  · rw [if_neg h1]
    by_cases h2 : c.toNat < 0x800
    · rw [if_pos h2]
      simp only [List.cons_append, List.singleton_append]
      rw [decodeOne_cons, if_neg (by omega), if_neg (by omega), if_pos (by omega),
        takeCont_cons, if_pos (by omega)]
      simp only [Option.some_bind, Option.some.injEq, Prod.mk.injEq]
      exact ⟨by omega, rfl⟩
    · rw [if_neg h2]
      by_cases h3 : c.toNat < 0x10000
      · rw [if_pos h3]
        simp only [List.cons_append, List.singleton_append]
        rw [decodeOne_cons, if_neg (by omega), if_neg (by omega), if_neg (by omega),
          if_pos (by omega), takeCont_cons, if_pos (by omega)]
        simp only [Option.some_bind, List.nil_append]
        rw [takeCont_cons, if_pos (by omega)]
        simp only [Option.some_bind]
        rw [if_pos (by omega)]
        simp only [Option.some.injEq, Prod.mk.injEq]
        exact ⟨by omega, trivial⟩
      · rw [if_neg h3]
        simp only [List.cons_append, List.singleton_append]
        rw [decodeOne_cons, if_neg (by omega), if_neg (by omega), if_neg (by omega),
          if_neg (by omega), if_pos (by omega), takeCont_cons, if_pos (by omega)]
        simp only [Option.some_bind, List.nil_append]
        rw [takeCont_cons, if_pos (by omega)]
        simp only [Option.some_bind]
        rw [takeCont_cons, if_pos (by omega)]
        simp only [Option.some_bind]
        rw [if_pos (by omega)]
        simp only [Option.some.injEq, Prod.mk.injEq]
        exact ⟨by omega, trivial⟩

/-- Decoding the UTF-8 bytes of one character prepended to any byte list
recovers that character. -/
theorem utf8Decode_utf8Bytes (c : Char) (bs : List Nat) :
    utf8Decode (utf8Bytes c ++ bs) = (utf8Decode bs).map (c :: ·) := by
  rw [utf8Decode.eq_def]
  split
  · rename_i heq
    rw [decodeOne_utf8Bytes] at heq
    cases heq
  · rename_i p heq
    rw [decodeOne_utf8Bytes] at heq
    cases heq
    rw [Char.ofNat_toNat]

/-- UTF-8 decoding inverts the string-to-bytes encoding. -/
theorem utf8Decode_stringBytes (l : List Char) :
    utf8Decode ((l.map utf8Bytes).flatten) = some l := by
  induction l with
  | nil =>
    rw [show (List.map utf8Bytes ([] : List Char)).flatten = [] from rfl, utf8Decode.eq_def]
    rfl
  | cons c t ih => rw [List.map_cons, List.flatten_cons, utf8Decode_utf8Bytes, ih]; rfl

/-- Unreserved bytes are ASCII and are not the percent sign. -/
theorem isUnreservedByte_range {b : Nat} (h : isUnreservedByte b = true) :
    b < 0x80 ∧ b ≠ 0x25 := by
  simp only [isUnreservedByte, Bool.or_eq_true, Bool.and_eq_true, decide_eq_true_eq,
    beq_iff_eq] at h
  omega

/-- hexVal inverts hexDigitChar on values below 16. -/
theorem hexVal_hexDigitChar (n : Nat) (h : n < 16) : hexVal (hexDigitChar n) = some n := by
  interval_cases n <;> decide

/-- Unfolding equation of percentDecodeBytes at a head that is not the
percent sign. -/
theorem percentDecodeBytes_cons_ne {c : Char} (cs : List Char) (hc : ¬ c = '%') :
    percentDecodeBytes (c :: cs) = utf8Bytes c ++ percentDecodeBytes cs := by
  rw [percentDecodeBytes.eq_def]
  dsimp only
  rw [if_neg hc]

/-- Unfolding equation of percentDecodeBytes at a percent sign followed by
two hex digits. -/
theorem percentDecodeBytes_percent {cs : List Char} {p : Nat × List Char}
    (hp : takeHex2 cs = some p) :
    percentDecodeBytes ('%' :: cs) = p.1 :: percentDecodeBytes p.2 := by
  rw [percentDecodeBytes.eq_def]
  dsimp only
  rw [if_pos rfl]
  split
  · rename_i p' hp'
    rw [hp] at hp'
    cases hp'
    rfl
  · rename_i hp'
    rw [hp] at hp'
    exact Option.noConfusion hp'

/-- percentDecodeBytes inverts encodeByte, byte by byte. -/
theorem percentDecodeBytes_encodeByte (b : Nat) (hb : b < 256) (cs : List Char) :
    percentDecodeBytes (encodeByte b ++ cs) = b :: percentDecodeBytes cs := by
  by_cases hu : isUnreservedByte b
  · obtain ⟨hlt, hne⟩ := isUnreservedByte_range hu
    have hval : Nat.isValidChar b := Or.inl (by omega)
    have ht : (Char.ofNat b).toNat = b := toNat_ofNat_valid hval
    have hc : ¬ Char.ofNat b = '%' := by
      intro hch
      apply hne
      rw [← ht, hch]
      rfl
    rw [encodeByte, if_pos hu, List.singleton_append, percentDecodeBytes_cons_ne cs hc]
    have hbytes : utf8Bytes (Char.ofNat b) = [b] := by
      rw [utf8Bytes, ht, if_pos hlt]
    rw [hbytes, List.singleton_append]
  · have hp : takeHex2 (hexDigitChar (b / 16) :: hexDigitChar (b % 16) :: cs) = some (b, cs) := by
      rw [show takeHex2 (hexDigitChar (b / 16) :: hexDigitChar (b % 16) :: cs) =
          (match hexVal (hexDigitChar (b / 16)), hexVal (hexDigitChar (b % 16)) with
            | some hv, some lv => some (hv * 16 + lv, cs)
            | _, _ => none) from rfl]
      rw [hexVal_hexDigitChar (b / 16) (by omega), hexVal_hexDigitChar (b % 16) (by omega)]
      simp only [Option.some.injEq, Prod.mk.injEq]
      exact ⟨by omega, trivial⟩
    rw [encodeByte, if_neg hu]
    simp only [List.cons_append, List.nil_append]
    rw [percentDecodeBytes_percent hp]

/-- percentDecodeBytes inverts the byte-list encoder. -/
theorem percentDecodeBytes_encode (bs : List Nat) (h : ∀ b ∈ bs, b < 256) :
    percentDecodeBytes ((bs.map encodeByte).flatten) = bs := by
  induction bs with
  | nil =>
    rw [List.map_nil, List.flatten_nil, percentDecodeBytes.eq_def]
  | cons b t ih =>
    rw [List.map_cons, List.flatten_cons, percentDecodeBytes_encodeByte b (h b (by simp)),
      ih (fun x hx => h x (by simp [hx]))]

/-! ## Properties of the path base name -/

/-- Unfolding equation of splitSlash on a non-empty list. -/
theorem splitSlash_cons (c : Char) (rest : List Char) :
    splitSlash (c :: rest) =
      if c = '/' then [] :: splitSlash rest
      else
        match splitSlash rest with
        | [] => [[c]]
        | g :: gs => (c :: g) :: gs := rfl

/-- splitSlash never yields the empty list of chunks. -/
theorem splitSlash_ne_nil (l : List Char) : splitSlash l ≠ [] := by
  cases l with
  | nil => simp [show splitSlash [] = [[]] from rfl]
  | cons c rest =>
    rw [splitSlash_cons]
    split
    · simp
    · split <;> simp

/-- splitSlash distributes over a separator in the middle. -/
theorem splitSlash_append (xs ys : List Char) :
    splitSlash (xs ++ '/' :: ys) = splitSlash xs ++ splitSlash ys := by
  induction xs with
  | nil =>
    rw [List.nil_append, splitSlash_cons, if_pos rfl, show splitSlash [] = [[]] from rfl]
    rfl
  | cons c rest ih =>
    rw [List.cons_append, splitSlash_cons, splitSlash_cons]
    by_cases hc : c = '/'
    · rw [if_pos hc, if_pos hc, ih]
      rfl
    · rw [if_neg hc, if_neg hc, ih]
      obtain ⟨g, gs, hg⟩ := List.exists_cons_of_ne_nil (splitSlash_ne_nil rest)
      rw [hg, List.cons_append]
      rfl

/-- A chunk without separators splits into itself. -/
theorem splitSlash_no_slash (l : List Char) (h : '/' ∉ l) : splitSlash l = [l] := by
  induction l with
  | nil => rfl
  | cons c rest ih =>
    have h1 : ¬ ('/' = c) := fun hc => h (by rw [hc]; exact List.mem_cons_self _ _)
    have h2 : '/' ∉ rest := fun hm => h (List.mem_cons_of_mem _ hm)
    rw [splitSlash_cons, if_neg (fun hc => h1 hc.symm), ih h2]

/-- Base-name extraction discards all directory components: for any
directory prefix `d` and any separator-free final component `b` that is
not empty, `.` or `..`, the base name of `d ++ "/" ++ b` is `b` itself. -/
theorem fileName_append (d b : String) (hs : '/' ∉ b.data) (h0 : b.data ≠ [])
    (h1 : b.data ≠ ['.']) (h2 : b.data ≠ ['.', '.']) :
    fileName (d ++ "/" ++ b) = some b := by
  have hdata : (d ++ "/" ++ b).data = d.data ++ '/' :: b.data := by
    rw [String.data_append, String.data_append, List.append_assoc]
    rfl
  unfold fileName
  rw [hdata, splitSlash_append, List.filter_append, splitSlash_no_slash b.data hs]
  have hkept : keptComponent b.data = true := by
    simp only [keptComponent, Bool.and_eq_true, Bool.not_eq_true', List.isEmpty_iff,
      bne_iff_ne, ne_eq]
    exact ⟨by simpa using h0, h1⟩
  rw [show List.filter keptComponent [b.data] = [b.data] by
    rw [List.filter_cons, if_pos hkept]; rfl]
  rw [List.getLast?_concat]
  dsimp only
  rw [if_neg h2]

/-! ## Run-level unfolding lemmas -/

/-- On Windows with an uninstall flag anywhere in argv, run is the
uninstall branch. -/
theorem run_uninstall {e : Env} (h : (e.windows && e.args.any isUninstallFlag) = true) :
    run e = uninstallRun e := by
  unfold run
  rw [if_pos h]

/-- Without the uninstall shortcut, run is the normal pipeline. -/
theorem run_normal {e : Env} (h : (e.windows && e.args.any isUninstallFlag) = false) :
    run e = runNormal e := by
  unfold run
  rw [if_neg (by simp [h])]

/-- When settings resolution succeeds, the normal pipeline continues with
the parsed settings. -/
theorem run_afterSettings {e : Env} {s : Settings}
    (hni : (e.windows && e.args.any isUninstallFlag) = false)
    (hs : resolvedSettings e = some s) :
    run e = afterSettings e (registrationDialogs e) (registryAfterNormal e) s := by
  rw [run_normal hni]
  unfold resolvedSettings settingsResult at hs
  unfold runNormal
  rcases hset : settingsNew e.appdataConfig e.exeDirConfig with ⟨res, ds⟩
  rw [hset] at hs
  cases res with
  | error err => exact absurd hs (by simp)
  | ok s2 =>
    rw [show ((match ((Except.ok s2 : Except StartupError Settings), ds).1 with
      | Except.ok s => some s
      | Except.error _ => none) : Option Settings) = some s2 from rfl] at hs
    cases hs
    rfl

/-- The uninstall branch ends in one of the two uninstall outcomes. -/
theorem uninstallRun_outcome (e : Env) :
    (uninstallRun e).outcome = Outcome.uninstallOk ∨
      (uninstallRun e).outcome = Outcome.uninstallFailed := by
  unfold uninstallRun
  split
  · split
    · exact Or.inl rfl
    · exact Or.inr rfl
  · exact Or.inl rfl

/-- The uninstall branch never loads settings, constructs the client,
or sends a request. -/
theorem uninstallRun_pure (e : Env) :
    (uninstallRun e).settingsLoaded = false ∧ (uninstallRun e).clientConstructed = false ∧
      (uninstallRun e).networkCalled = false ∧ (uninstallRun e).putKey = none := by
  unfold uninstallRun
  split
  · split
    · exact ⟨rfl, rfl, rfl, rfl⟩
    · exact ⟨rfl, rfl, rfl, rfl⟩
  · exact ⟨rfl, rfl, rfl, rfl⟩

/-! ## The claims -/

/-- Config file identical to goodConfig but with two trailing slashes on
the endpoint. -/
def slashConfig : ConfigFile :=
  ⟨true, some "https://s3.example.com//", some "AK", some "SK", some "photos"⟩

/-- A fully successful run whose endpoint ends in two slashes. -/
def envSlash : Env := { envBase with appdataConfig := some slashConfig }

/-- C1, counterexample to the claim as stated: with an endpoint ending in
two trailing slashes the upload succeeds but the produced URL is not the
spec formula (all trailing slashes trimmed) — the code pops only one
slash, leaving a doubled separator in the URL. -/
theorem c1_counterexample :
    (run envSlash).outcome = Outcome.uploadSuccess ∧
      (run envSlash).objectUrl = some "https://s3.example.com//photos/My%20Trip.png" ∧
      (run envSlash).objectUrl ≠
        some (specObjectUrl "https://s3.example.com//" "photos" (objectKey "dir/My Trip.png")) :=
  ⟨by decide, by decide, by decide⟩

/-- C1 (amended): every successful upload produces the object URL obtained
from the whitespace-trimmed endpoint with at most ONE trailing slash
removed, joined with "/" to the bucket and the percent-encoded object key
(`buildObjectUrl`); endpoints ending in several slashes keep the extra
ones. -/
theorem c1_object_url (e : Env) (s : Settings)
    (hs : resolvedSettings e = some s)
    (hok : (run e).outcome = Outcome.uploadSuccess) :
    (run e).objectUrl =
      some (buildObjectUrl s.endpoint s.bucket (objectKey (arg1 e))) := by
  by_cases hni : (e.windows && e.args.any isUninstallFlag) = true
  · exfalso
    rw [run_uninstall hni] at hok
    rcases uninstallRun_outcome e with h | h <;> rw [hok] at h <;> exact Outcome.noConfusion h
  · have hni2 : (e.windows && e.args.any isUninstallFlag) = false := by
      revert hni
      cases e.windows && e.args.any isUninstallFlag <;> simp
    rw [run_afterSettings hni2 hs] at hok ⊢
    unfold afterSettings at hok ⊢
    by_cases h1 : e.args.length < 2
    · rw [if_pos h1] at hok
      exact absurd hok (by simp)
    · rw [if_neg h1] at hok ⊢
      by_cases h2 : e.fsExists (arg1 e) = true
      · rw [if_pos h2] at hok ⊢
        by_cases h3 : e.baseUrlOk s.endpoint = true
        · rw [if_pos h3] at hok ⊢
          by_cases h4 : e.clientBuildOk = true
          · rw [if_pos h4] at hok ⊢
            by_cases h5 : e.fileReadOk = true
            · rw [if_pos h5] at hok ⊢
              by_cases h6 : e.uploadOk = true
              · rw [if_pos h6]
              · rw [if_neg h6] at hok
                exact absurd hok (by simp)
            · rw [if_neg h5] at hok
              exact absurd hok (by simp)
          · rw [if_neg h4] at hok
            exact absurd hok (by simp)
        · rw [if_neg h3] at hok
          exact absurd hok (by simp)
      · rw [if_neg h2] at hok
        exact absurd hok (by simp)

/-- C1 witness: the spec section 8 example run (endpoint
"https://s3.example.com/", bucket "photos", file "dir/My Trip.png")
produces exactly the URL "https://s3.example.com/photos/My%20Trip.png". -/
theorem c1_witness :
    (run envBase).objectUrl =
      some (buildObjectUrl "https://s3.example.com/" "photos"
        (objectKey (arg1 envBase))) ∧
    (run envBase).objectUrl = some "https://s3.example.com/photos/My%20Trip.png" :=
  ⟨c1_object_url envBase goodSettings (by decide) (by decide), by decide⟩

/-- Invocation with only the program name and no config file anywhere. -/
def envNoConfigNoArgs : Env :=
  { envBase with appdataConfig := none, exeDirConfig := none, args := ["minio_uploader"] }

/-- Invocation with only the program name but a valid config. -/
def envOneArg : Env := { envBase with args := ["minio_uploader"] }

/-- C2, counterexample to the claim as stated: with fewer than two
arguments AND an unresolvable configuration, the outcome is the
configuration error, not UsageError — Settings::new runs before the
argument-count check, so the usage failure is not produced when
configuration resolution fails. -/
theorem c2_counterexample :
    envNoConfigNoArgs.args.length < 2 ∧
      (run envNoConfigNoArgs).outcome ≠ Outcome.usageError ∧
      (run envNoConfigNoArgs).outcome = Outcome.configNotFound ∧
      (run envNoConfigNoArgs).exitCode = 1 :=
  ⟨by decide, by decide, by decide, by decide⟩

/-- C2 (amended): when the run is not a Windows uninstall run and settings
resolution succeeds, an argument list with fewer than two entries yields
UsageError and exit code 1; when settings resolution fails, that failure
is reported first instead (still with exit code 1). -/
theorem c2_usage_error (e : Env) (s : Settings)
    (hs : resolvedSettings e = some s)
    (hni : (e.windows && e.args.any isUninstallFlag) = false)
    (hlen : e.args.length < 2) :
    (run e).outcome = Outcome.usageError ∧ (run e).exitCode = 1 := by
  rw [run_afterSettings hni hs]
  unfold afterSettings
  rw [if_pos hlen]
  exact ⟨rfl, rfl⟩

/-- C2 witness: one argument, valid settings: UsageError, exit 1. -/
theorem c2_witness :
    (run envOneArg).outcome = Outcome.usageError ∧ (run envOneArg).exitCode = 1 :=
  c2_usage_error envOneArg goodSettings (by decide) (by decide) (by decide)

/-- Settings::new shows the not-found dialog in exactly the not-found
case, and no dialog otherwise. -/
theorem settingsNew_shape (a b : Option ConfigFile) :
    ((settingsNew a b).1 = Except.error StartupError.configNotFound ∧
      (settingsNew a b).2 = [Dialog.error configNotFoundMsg]) ∨
    ((settingsNew a b).1 ≠ Except.error StartupError.configNotFound ∧
      (settingsNew a b).2 = []) := by
  unfold settingsNew
  split
  · exact Or.inl ⟨rfl, rfl⟩
  all_goals split
  all_goals try exact Or.inr ⟨by simp, rfl⟩
  all_goals split
  all_goals exact Or.inr ⟨by simp, rfl⟩

/-- The pipeline after settings resolution never produces a configuration
or uninstall outcome. -/
theorem afterSettings_outcome (e : Env) (rd : List Dialog) (ra : Bool) (s : Settings) :
    (afterSettings e rd ra s).outcome ≠ Outcome.configNotFound ∧
      (afterSettings e rd ra s).outcome ≠ Outcome.configParseError ∧
      (afterSettings e rd ra s).outcome ≠ Outcome.uninstallOk ∧
      (afterSettings e rd ra s).outcome ≠ Outcome.uninstallFailed := by
  unfold afterSettings
  repeat' split
  all_goals exact ⟨by simp, by simp, by simp, by simp⟩

/-- Config file with a missing endpoint field. -/
def badConfig : ConfigFile := ⟨true, none, some "AK", some "SK", some "photos"⟩

/-- Run whose config file exists but misses a required field. -/
def envParseErr : Env := { envBase with appdataConfig := some badConfig }

/-- C3, counterexample to the claim as stated: a run hitting
ConfigParseError exits with status 1 but shows NO dialog at all (the
parse error propagates through `?` to main, which only prints to the
error stream), unlike ConfigNotFound. -/
theorem c3_counterexample :
    (run envParseErr).outcome = Outcome.configParseError ∧
      (run envParseErr).exitCode = 1 ∧ (run envParseErr).dialogs = [] :=
  ⟨by decide, by decide, by decide⟩

/-- C3 (amended): on a non-Windows run, ConfigNotFound is reported
exactly once via a blocking error dialog before exit 1, but
ConfigParseError is not reported via any dialog — only the error-stream
line — before exit 1. -/
theorem c3_fatal_dialogs (e : Env) (hw : e.windows = false) :
    ((run e).outcome = Outcome.configNotFound →
      (run e).exitCode = 1 ∧ (run e).dialogs = [Dialog.error configNotFoundMsg]) ∧
    ((run e).outcome = Outcome.configParseError →
      (run e).exitCode = 1 ∧ (run e).dialogs = []) := by
  have hni : (e.windows && e.args.any isUninstallFlag) = false := by rw [hw]; rfl
  have hreg : registrationDialogs e = [] := by
    unfold registrationDialogs
    rw [hw]
    rfl
  rw [run_normal hni]
  unfold runNormal
  rcases hset : settingsNew e.appdataConfig e.exeDirConfig with ⟨res, ds⟩
  have hshape := settingsNew_shape e.appdataConfig e.exeDirConfig
  rw [hset] at hshape
  cases res with
  | error err =>
    cases err with
    | configNotFound =>
      rcases hshape with ⟨_, hds⟩ | ⟨hne, _⟩
      · dsimp only at hds
        constructor
        · intro _
          refine ⟨rfl, ?_⟩
          dsimp only
          rw [hreg, hds, List.nil_append]
        · intro h
          exact absurd h (by simp)
      · exfalso
        apply hne
        rfl
    | configParseError =>
      rcases hshape with ⟨hne, _⟩ | ⟨_, hds⟩
      · exact absurd hne (by simp)
      · dsimp only at hds
        constructor
        · intro h
          exact absurd h (by simp)
        · intro _
          refine ⟨rfl, ?_⟩
          dsimp only
          rw [hreg, hds, List.append_nil]
  | ok s2 =>
    have hout := afterSettings_outcome e (registrationDialogs e) (registryAfterNormal e) s2
    exact ⟨fun h => absurd h hout.1, fun h => absurd h hout.2.1⟩

/-- C3 witness: the amended statement at the config-not-found run (the
dialog really appears there, exactly once). -/
theorem c3_witness :
    ((run envNoConfigNoArgs).outcome = Outcome.configNotFound →
      (run envNoConfigNoArgs).exitCode = 1 ∧
        (run envNoConfigNoArgs).dialogs = [Dialog.error configNotFoundMsg]) ∧
    ((run envNoConfigNoArgs).outcome = Outcome.configParseError →
      (run envNoConfigNoArgs).exitCode = 1 ∧ (run envNoConfigNoArgs).dialogs = []) :=
  c3_fatal_dialogs envNoConfigNoArgs (by decide)

/-- Config file whose four fields are present but all empty strings. -/
def emptyFieldsConfig : ConfigFile := ⟨true, some "", some "", some "", some ""⟩

/-- Run with the empty-fields config and a single argument. -/
def envEmptyFields : Env :=
  { envBase with appdataConfig := some emptyFieldsConfig, args := ["minio_uploader"] }

/-- C4, counterexample to the claim as stated: parsing accepts a
configuration whose four fields are all empty strings — startup does not
fail there (the run proceeds past configuration to the usage check),
refuting the non-emptiness half of the invariant. -/
theorem c4_counterexample :
    settingsResult (some emptyFieldsConfig) none = some ⟨"", "", "", ""⟩ ∧
      resolvedSettings envEmptyFields = some ⟨"", "", "", ""⟩ ∧
      (run envEmptyFields).outcome = Outcome.usageError :=
  ⟨by decide, by decide, by decide⟩

/-- C4 (amended): configuration parsing succeeds exactly when the file is
syntactically well-formed and all four fields are present; the parsed
values are taken as-is, and non-emptiness is not checked. -/
theorem c4_fields_present (f : ConfigFile) (b : Option ConfigFile) :
    (∃ s, (settingsNew (some f) b).1 = Except.ok s) ↔
      (f.syntaxOk = true ∧ f.endpoint.isSome = true ∧ f.access_key.isSome = true ∧
        f.secret_key.isSome = true ∧ f.bucket.isSome = true) := by
  obtain ⟨so, ep, ak, sk, bk⟩ := f
  cases so <;> cases ep <;> cases ak <;> cases sk <;> cases bk <;>
    simp [settingsNew]

/-- Windows run carrying the uninstall flag, registry subtree absent. -/
def envUninstallAbsent : Env :=
  { envBase with windows := true, args := ["minio_uploader", "--uninstall"] }

/-- C5, counterexample to the claim as stated: a Windows uninstall run
exits with code 0 although the upload never happened (no network call,
outcome is not uploadSuccess), so exit code 0 does not imply a successful
upload. -/
theorem c5_counterexample :
    (run envUninstallAbsent).exitCode = 0 ∧
      (run envUninstallAbsent).networkCalled = false ∧
      (run envUninstallAbsent).outcome ≠ Outcome.uploadSuccess :=
  ⟨by decide, by decide, by decide⟩

/-- C5 (amended): the exit code is 0 exactly when the upload succeeded or
a Windows uninstall run succeeded, and 1 otherwise; in particular a
clipboard failure after a successful upload still exits 0 (the second
conjunct), since the clipboard result never influences the exit code. -/
theorem c5_exit_code (e : Env) :
    ((run e).exitCode = 0 ↔
      ((run e).outcome = Outcome.uploadSuccess ∨ (run e).outcome = Outcome.uninstallOk)) ∧
    (e.clipboardOk = false → (run e).outcome = Outcome.uploadSuccess →
      (run e).exitCode = 0) := by
  have main : (run e).exitCode = 0 ↔
      ((run e).outcome = Outcome.uploadSuccess ∨ (run e).outcome = Outcome.uninstallOk) := by
    by_cases hni : (e.windows && e.args.any isUninstallFlag) = true
    · rw [run_uninstall hni]
      unfold uninstallRun
      split
      · split
        · simp
        · simp
      · simp
    · have hni2 : (e.windows && e.args.any isUninstallFlag) = false := by
        revert hni
        cases e.windows && e.args.any isUninstallFlag <;> simp
      rw [run_normal hni2]
      unfold runNormal
      rcases hset : settingsNew e.appdataConfig e.exeDirConfig with ⟨res, ds⟩
      cases res with
      | error err => cases err <;> simp
      | ok s2 =>
        unfold afterSettings
        repeat' split
        all_goals simp
  exact ⟨main, fun _ h => main.mpr (Or.inl h)⟩

/-- Windows invocation whose (nonexistent) path argument is literally the
uninstall flag; no config exists either. -/
def envUninstallMissingFile : Env :=
  { envBase with
    windows := true, args := ["minio_uploader", "--uninstall"],
    fsExists := (fun _ => false), appdataConfig := none, exeDirConfig := none }

/-- C6, counterexample to the claim as stated: on Windows, an invocation
naming a nonexistent path that happens to spell the uninstall flag takes
the uninstall branch instead: the outcome is not FileNotFound and the
exit code is 0, not 1. -/
theorem c6_counterexample :
    envUninstallMissingFile.fsExists (arg1 envUninstallMissingFile) = false ∧
      (run envUninstallMissingFile).outcome ≠ Outcome.fileNotFound ∧
      (run envUninstallMissingFile).exitCode = 0 :=
  ⟨by decide, by decide, by decide⟩

/-- C6 (amended): for every non-uninstall invocation where settings
resolution succeeds, at least two arguments are present and the named
path does not exist, the run yields FileNotFound and exit code 1, and the
storage client is never constructed nor any network request sent. -/
theorem c6_file_not_found (e : Env) (s : Settings)
    (hni : (e.windows && e.args.any isUninstallFlag) = false)
    (hs : resolvedSettings e = some s)
    (hlen : ¬ e.args.length < 2)
    (hex : e.fsExists (arg1 e) = false) :
    (run e).outcome = Outcome.fileNotFound ∧ (run e).exitCode = 1 ∧
      (run e).clientConstructed = false ∧ (run e).networkCalled = false := by
  rw [run_afterSettings hni hs]
  unfold afterSettings
  rw [if_neg hlen, if_neg (by simp [hex])]
  exact ⟨rfl, rfl, rfl, rfl⟩

/-- Nonexistent-path invocation on a non-Windows host, valid settings. -/
def envMissingFile : Env := { envBase with fsExists := (fun _ => false) }

/-- C6 witness: a nonexistent path with valid settings really yields
FileNotFound, exit 1, and no client construction. -/
theorem c6_witness :
    (run envMissingFile).outcome = Outcome.fileNotFound ∧
      (run envMissingFile).exitCode = 1 ∧
      (run envMissingFile).clientConstructed = false ∧
      (run envMissingFile).networkCalled = false :=
  c6_file_not_found envMissingFile goodSettings (by decide) (by decide) (by decide) (by decide)

/-- C7: whenever a put request is sent, its storage key is the base name
of the path argument (`fileName`), with the literal "unknown_file" as
fallback when extraction fails; and base-name extraction discards the
directory part: the base name of `d ++ "/" ++ b` is `b` for any
separator-free component `b` other than "", "." and "..". -/
theorem c7_storage_key (e : Env) (k : String)
    (hk : (run e).putKey = some k)
    (d b : String) (hsep : '/' ∉ b.data) (hb0 : b.data ≠ [])
    (hb1 : b.data ≠ ['.']) (hb2 : b.data ≠ ['.', '.']) :
    k = (fileName (arg1 e)).getD "unknown_file" ∧
      (fileName (arg1 e) = none → k = "unknown_file") ∧
      fileName (d ++ "/" ++ b) = some b := by
  have hkey : k = objectKey (arg1 e) := by
    by_cases hni : (e.windows && e.args.any isUninstallFlag) = true
    · rw [run_uninstall hni] at hk
      rcases uninstallRun_pure e with ⟨_, _, _, hpk⟩
      rw [hpk] at hk
      exact Option.noConfusion hk
    · have hni2 : (e.windows && e.args.any isUninstallFlag) = false := by
        revert hni
        cases e.windows && e.args.any isUninstallFlag <;> simp
      rcases hres : resolvedSettings e with _ | s2
      · rw [run_normal hni2] at hk
        unfold resolvedSettings settingsResult at hres
        unfold runNormal at hk
        rcases hset : settingsNew e.appdataConfig e.exeDirConfig with ⟨res, ds⟩
        rw [hset] at hk hres
        cases res with
        | error err => cases err <;> exact absurd hk (by simp)
        | ok s2 => exact absurd hres (by simp)
      · rw [run_afterSettings hni2 hres] at hk
        unfold afterSettings at hk
        by_cases ha1 : e.args.length < 2
        · rw [if_pos ha1] at hk
          exact absurd hk (by simp)
        · rw [if_neg ha1] at hk
          by_cases ha2 : e.fsExists (arg1 e) = true
          · rw [if_pos ha2] at hk
            by_cases ha3 : e.baseUrlOk s2.endpoint = true
            · rw [if_pos ha3] at hk
              by_cases ha4 : e.clientBuildOk = true
              · rw [if_pos ha4] at hk
                by_cases ha5 : e.fileReadOk = true
                · rw [if_pos ha5] at hk
                  by_cases ha6 : e.uploadOk = true
                  · rw [if_pos ha6] at hk
                    have hk2 : some (objectKey (arg1 e)) = some k := hk
                    injection hk2 with hk3
                    exact hk3.symm
                  · rw [if_neg ha6] at hk
                    have hk2 : some (objectKey (arg1 e)) = some k := hk
                    injection hk2 with hk3
                    exact hk3.symm
                · rw [if_neg ha5] at hk
                  exact absurd hk (by simp)
              · rw [if_neg ha4] at hk
                exact absurd hk (by simp)
            · rw [if_neg ha3] at hk
              exact absurd hk (by simp)
          · rw [if_neg ha2] at hk
            exact absurd hk (by simp)
  refine ⟨hkey, fun hn => ?_, fileName_append d b hsep hb0 hb1 hb2⟩
  rw [hkey]
  unfold objectKey
  rw [hn]
  rfl

/-- C7 witness: the example run really uses key "My Trip.png", the base
name of "dir/My Trip.png". -/
theorem c7_witness :
    "My Trip.png" = (fileName (arg1 envBase)).getD "unknown_file" ∧
      (fileName (arg1 envBase) = none → "My Trip.png" = "unknown_file") ∧
      fileName ("dir" ++ "/" ++ "My Trip.png") = some "My Trip.png" :=
  c7_storage_key envBase "My Trip.png" (by decide) "dir" "My Trip.png" (by decide) (by decide)
    (by decide) (by decide)

/-- C8: percent-encoding of the object key round-trips — decoding the
encoded string recovers the original base name exactly, for every string,
names with spaces, non-ASCII characters and URL-reserved characters
included. -/
theorem c8_percent_roundtrip (name : String) :
    urlDecode (urlEncode name) = some name := by
  unfold urlDecode urlEncode
  rw [show (String.mk (((stringBytes name).map encodeByte).flatten)).data =
      ((stringBytes name).map encodeByte).flatten from rfl]
  rw [percentDecodeBytes_encode _ (stringBytes_lt name)]
  unfold stringBytes
  rw [utf8Decode_stringBytes]
  rfl

/-- C9: on Windows an uninstall-flag invocation short-circuits all other
startup logic: settings are never loaded, the storage client is never
constructed, no upload happens; when the registry subtree is absent the
run is a no-op success (exit 0, subtree still absent — idempotent); when
the subtree is present and deletion succeeds it is removed, exit 0. -/
theorem c9_uninstall (e : Env) (hw : e.windows = true)
    (hu : e.args.any isUninstallFlag = true) :
    (run e).settingsLoaded = false ∧ (run e).clientConstructed = false ∧
      (run e).networkCalled = false ∧
      (e.registryBaseKey = false →
        (run e).outcome = Outcome.uninstallOk ∧ (run e).exitCode = 0 ∧
          (run e).registryAfter = false) ∧
      (e.registryBaseKey = true → e.registryDeleteOk = true →
        (run e).outcome = Outcome.uninstallOk ∧ (run e).exitCode = 0 ∧
          (run e).registryAfter = false) := by
  have hni : (e.windows && e.args.any isUninstallFlag) = true := by rw [hw, hu]; rfl
  rw [run_uninstall hni]
  rcases uninstallRun_pure e with ⟨h1, h2, h3, _⟩
  refine ⟨h1, h2, h3, ?_, ?_⟩
  · intro hr
    unfold uninstallRun
    rw [hr]
    rw [if_neg (by simp)]
    exact ⟨rfl, rfl, rfl⟩
  · intro hr hd
    unfold uninstallRun
    rw [hr, hd, if_pos rfl, if_pos rfl]
    exact ⟨rfl, rfl, rfl⟩

/-- C9 witness: the uninstall run with the subtree absent is a no-op
success that loads no settings and uploads nothing. -/
theorem c9_witness :
    (run envUninstallAbsent).settingsLoaded = false ∧
      (run envUninstallAbsent).clientConstructed = false ∧
      (run envUninstallAbsent).networkCalled = false ∧
      (envUninstallAbsent.registryBaseKey = false →
        (run envUninstallAbsent).outcome = Outcome.uninstallOk ∧
          (run envUninstallAbsent).exitCode = 0 ∧
          (run envUninstallAbsent).registryAfter = false) ∧
      (envUninstallAbsent.registryBaseKey = true → envUninstallAbsent.registryDeleteOk = true →
        (run envUninstallAbsent).outcome = Outcome.uninstallOk ∧
          (run envUninstallAbsent).exitCode = 0 ∧
          (run envUninstallAbsent).registryAfter = false) :=
  c9_uninstall envUninstallAbsent (by decide) (by decide)

/-- Windows run with the uninstall flag, case-varied, in third position
after a payload path. -/
def envFlagLater : Env :=
  { envBase with windows := true, args := ["minio_uploader", "photo.png", "/UNINSTALL"] }

/-- C10: on Windows, any argument equal (ASCII-case-insensitively) to
"--uninstall" or "/uninstall", at any position of the argument list,
sends the run down the uninstall path: the outcome is one of the two
uninstall outcomes, settings are never loaded, and no put request is ever
sent — so a file literally named like the flag cannot be uploaded. -/
theorem c10_flag_any_position (e : Env) (a : String) (hw : e.windows = true)
    (ha : a ∈ e.args) (hf : isUninstallFlag a = true) :
    ((run e).outcome = Outcome.uninstallOk ∨ (run e).outcome = Outcome.uninstallFailed) ∧
      (run e).settingsLoaded = false ∧ (run e).networkCalled = false ∧
      (run e).putKey = none := by
  have hany : e.args.any isUninstallFlag = true := by
    rw [List.any_eq_true]
    exact ⟨a, ha, hf⟩
  have hni : (e.windows && e.args.any isUninstallFlag) = true := by rw [hw, hany]; rfl
  rw [run_uninstall hni]
  rcases uninstallRun_pure e with ⟨h1, _, h3, h4⟩
  exact ⟨uninstallRun_outcome e, h1, h3, h4⟩

/-- C10 witness: "/UNINSTALL" in third position, after a payload path,
still triggers the uninstall route and nothing is uploaded. -/
theorem c10_witness :
    ((run envFlagLater).outcome = Outcome.uninstallOk ∨
      (run envFlagLater).outcome = Outcome.uninstallFailed) ∧
      (run envFlagLater).settingsLoaded = false ∧
      (run envFlagLater).networkCalled = false ∧
      (run envFlagLater).putKey = none :=
  c10_flag_any_position envFlagLater "/UNINSTALL" (by decide) (by decide) (by decide)
